import Mathlib

/-!
Verification development for the SMOS L4 image interface
(`src/smos/smos_l4/interface_l4.py`).

The Python module is shallowly embedded: the decoder instance state
(`SMOSL4Img`) becomes an explicit record threaded through the functions,
numpy arrays become lists of cells (a value plus a mask bit), netCDF
datasets become records of named variables, Python exceptions become an
`Except` error type, and side effects on the file system are reported as
an explicit action trace.  Timestamps are integers (minutes since an
epoch); one day is 1440 minutes.
-/

set_option autoImplicit false

namespace SmosL4

/-- A numeric cell value: either NaN (not-a-number) or a finite value
(modelled as an integer; the magnitude structure of floats is irrelevant
to the interface logic). -/
inductive Val where
  | nan : Val
  | fin : Int → Val
  deriving DecidableEq, Repr

/-- A netCDF attribute value (string or numeric). -/
inductive AttrVal where
  | int : Int → AttrVal
  | str : String → AttrVal
  deriving DecidableEq, Repr

/-- One element of a (possibly masked) numpy array: the underlying value
and its mask bit. -/
structure Cell where
  val : Val
  msk : Bool
  deriving DecidableEq, Repr

/-- An attribute dictionary (Python `dict` as an association list with
unique keys in practice). -/
abbrev AttrMap := List (String × AttrVal)

/-- A numpy array in the model: a shape tag plus the row-major cell
contents, the fill value set with `np.ma.set_fill_value`, and the dtype
floating-ness (used by the `float_fillval` policy). -/
structure NDArr where
  shape : List Nat
  cells : List Cell
  fill : Option AttrVal
  isFloat : Bool
  deriving DecidableEq, Repr

abbrev ImgDict := List (String × NDArr)
abbrev MetaDict := List (String × AttrMap)

/-- One netCDF variable of the source file: dimensionality, declared
shape, raw flattened data, attributes, dtype floating-ness. -/
structure NCVar where
  ndim : Nat
  shape : List Nat
  data : List Val
  attrs : AttrMap
  isFloat : Bool
  deriving DecidableEq, Repr

/-- A source netCDF dataset: named variables plus global attributes. -/
structure NCDataset where
  vars : List (String × NCVar)
  globalAttrs : AttrMap
  deriving DecidableEq, Repr

/-- Modelled from the spec: the external Grid collaborator
(`smos.grid.EASE25CellGrid`, not under `src/`).  Per spec section 3 it
maps a 2D `(rows, cols)` raster shape to a flat ordered sequence of
active-point indices and exposes per-point longitude/latitude arrays.
`subset_shape`/`shape` of the Python grid are collapsed into one
`(rows, cols)` pair. -/
structure GridModel where
  rows : Nat
  cols : Nat
  activegpis : List Nat
  activearrlon : List Val
  activearrlat : List Val
  deriving DecidableEq, Repr

/-- The in-memory image produced by `read` (pygeobase `Image`):
coordinates, per-parameter data, per-parameter metadata, timestamp. -/
structure RasterImage where
  lon : NDArr
  lat : NDArr
  data : ImgDict
  metadata : MetaDict
  timestamp : Option Int
  deriving DecidableEq, Repr

/-- The mutable state of one `SMOSL4Img` instance. -/
structure DecState where
  parameters : List String
  flatten : Bool
  grid : GridModel
  read_flags : Option (List Val)
  oper : Bool
  float_fillval : Option Val
  image_missing : Bool
  img : Option RasterImage
  glob_attrs : Option AttrMap
  deriving DecidableEq, Repr

/-- Python exceptions that the embedded code can raise. -/
inductive PyErr where
  | valueError
  | keyError
  | indexError
  | ioError
  | attributeError
  deriving DecidableEq, Repr

/-- Observable actions of `read` (source-file access, warning). -/
inductive RAct where
  | srcOpen
  | warn
  deriving DecidableEq, Repr

/-- Observable actions of `write` (target-file open in create or append
mode, one time-axis entry appended, one variable slot written). -/
inductive WAct where
  | targetOpen (createMode : Bool)
  | stampWrite (t : Int)
  | varWrite (name : String)
  deriving DecidableEq, Repr

/-- Python `dict` lookup (`m[k]`), as an option. -/
def dictLookup {α : Type} (m : List (String × α)) (k : String) : Option α :=
  match m with
  | [] => none
  | (k2, v) :: rest => if k2 = k then some v else dictLookup rest k

/-- Python `dict` assignment `m[k] = v`: replace in place if present,
else append. -/
def dictSet {α : Type} (m : List (String × α)) (k : String) (v : α) :
    List (String × α) :=
  match m with
  | [] => [(k, v)]
  | (k2, v2) :: rest =>
    if k2 = k then (k2, v) :: rest else (k2, v2) :: dictSet rest k v

/-- Python `dict.pop(k)` on a dict with unique keys: drop every entry
with key `k`. -/
def dictRemove {α : Type} : List (String × α) → String → List (String × α)
  | [], _ => []
  | kv :: rest, k =>
    if kv.1 = k then dictRemove rest k else kv :: dictRemove rest k

def dictKeys {α : Type} (m : List (String × α)) : List String :=
  m.map Prod.fst

/-- Split a flat row-major list into `r` rows of `c` entries (model of
`ndarray.reshape(r, c)` when the length is `r * c`). -/
def chunkN {α : Type} (r c : Nat) (l : List α) : List (List α) :=
  match r with
  | 0 => []
  | r0 + 1 => l.take c :: chunkN r0 c (l.drop c)

/-- `np.flipud` composed with `reshape(r, c)`, returned flat again in
row-major order. -/
def flipCells {α : Type} (r c : Nat) (l : List α) : List α :=
  ((chunkN r c l).reverse).flatten

/-- Wrap a plain coordinate list (no mask) as an array. -/
def flatArr (l : List Val) : NDArr :=
  { shape := [l.length], cells := l.map (fun v => { val := v, msk := false }),
    fill := none, isFloat := true }

/-- `SMOSL4Img.__init__` configuration arguments. -/
structure ImgConfig where
  parameters : Option (List String)
  flatten : Bool
  grid : GridModel
  read_flags : Option (List Val)
  oper : Bool
  float_fillval : Option Val
  deriving DecidableEq, Repr

/-- `SMOSL4Img.__init__`: `parameters=None` becomes the empty list;
`image_missing` starts false, `img` and `glob_attrs` start `None`. -/
def initImg (c : ImgConfig) : DecState :=
  { parameters := c.parameters.getD []
    flatten := c.flatten
    grid := c.grid
    read_flags := c.read_flags
    oper := c.oper
    float_fillval := c.float_fillval
    image_missing := false
    img := none
    glob_attrs := none }

/-- `SMOSL4Img._read_empty`: set `image_missing`, and for every
configured parameter produce a `(rows, cols)`-sized all-NaN array,
flattened, with metadata exactly `{image_missing: 1}`. -/
def readEmpty (s : DecState) : DecState × ImgDict × MetaDict :=
  let n := s.grid.rows * s.grid.cols
  ({ s with image_missing := true },
   s.parameters.map (fun p =>
     (p, { shape := [n], cells := List.replicate n { val := Val.nan, msk := false },
           fill := none, isFloat := true })),
   s.parameters.map (fun p => (p, [("image_missing", AttrVal.int 1)])))

/-- Line 140: the auto-detected parameter set — every variable whose
dimensionality is not 1 (single-axis variables are coordinate axes). -/
def multidimVars (ds : NCDataset) : List String :=
  (ds.vars.filter (fun kv => kv.2.ndim != 1)).map Prod.fst

/-- The quality-flag variable name, chosen by the product variant. -/
def flagVarName (oper : Bool) : String :=
  if oper then "Quality" else "QUAL"

/-- Lines 143-150: the effective parameter list for the decode loop —
the configured parameters, plus the flag variable appended when
filtering is enabled and it is not already requested. -/
def effParams (s : DecState) : List String :=
  s.parameters ++
    (if s.read_flags.isSome && !(s.parameters.contains (flagVarName s.oper))
     then [flagVarName s.oper] else [])

/-- Lines 152-167: per-parameter read loop.  Looks up the variable
(KeyError if absent), copies its attributes, sets the mask to the
non-finite positions, sets the fill value from `_FillValue` (KeyError if
absent), and tags `image_missing = 0`. -/
def buildParams (ds : NCDataset) : List String → Except PyErr (ImgDict × MetaDict)
  | [] => .ok ([], [])
  | p :: rest =>
    match dictLookup ds.vars p with
    | none => .error .keyError
    | some v =>
      match dictLookup v.attrs "_FillValue" with
      | none => .error .keyError
      | some fv =>
        let arr : NDArr :=
          { shape := v.shape
            cells := v.data.map (fun x => { val := x, msk := x == Val.nan })
            fill := some fv
            isFloat := v.isFloat }
        let md := dictSet v.attrs "image_missing" (AttrVal.int 0)
        match buildParams ds rest with
        | .error e => .error e
        | .ok (ri, rm) => .ok ((p, arr) :: ri, (p, md) :: rm)

/-- Lines 169-177: the flag-exclusion mask.  With filtering enabled, a
point is excluded when its flag value is not in the accepted set; with
filtering disabled, an all-false mask shaped like the first parameter
(IndexError when the parameter list is empty, as in Python). -/
def computeFlagMask (s : DecState) (pimg : ImgDict) (px : List String) :
    Except PyErr (List Bool) :=
  match s.read_flags with
  | some flags =>
    match dictLookup pimg (flagVarName s.oper) with
    | none => .error .keyError
    | some qa => .ok (qa.cells.map (fun cl => !(flags.contains cl.val)))
  | none =>
    match px with
    | [] => .error .indexError
    | p0 :: _ =>
      match dictLookup pimg p0 with
      | none => .error .keyError
      | some a0 => .ok (List.replicate a0.cells.length false)

/-- Line 181: OR the flag mask into the existing mask, elementwise. -/
def mergeMaskCells (flagMask : List Bool) (cells : List Cell) : List Cell :=
  (cells.zip flagMask).map
    (fun q => ({ val := q.1.val, msk := q.1.msk || q.2 } : Cell))

/-- Lines 183-185: materialize masked values as `float_fillval` for
floating parameters (`ndarray.filled`); non-floating parameters and a
disabled fill policy leave the masked array untouched. -/
def fillFloatCells (s : DecState) (isF : Bool) (cells : List Cell) :
    List Cell :=
  match s.float_fillval with
  | some fv =>
    if isF then
      cells.map (fun (cl : Cell) =>
        if cl.msk then ({ val := fv, msk := false } : Cell)
        else ({ val := cl.val, msk := false } : Cell))
    else cells
  | none => cells

/-- Lines 179-187 for one parameter: OR the flag mask into the existing
mask (shape mismatch is a broadcast ValueError), materialize masked
values as `float_fillval` for floating parameters, then select the
grid's active points from the flattened array (IndexError when an
active index is out of range). -/
def applyMaskOne (s : DecState) (flagMask : List Bool) (a : NDArr) :
    Except PyErr NDArr :=
  if a.cells.length ≠ flagMask.length then .error .valueError else
  if s.grid.activegpis.all
      (fun g => g < (fillFloatCells s a.isFloat
        (mergeMaskCells flagMask a.cells)).length) then
    .ok { shape := [s.grid.activegpis.length]
          cells := s.grid.activegpis.map
            (fun g => (fillFloatCells s a.isFloat
              (mergeMaskCells flagMask a.cells)).getD g
              { val := Val.nan, msk := false })
          fill := a.fill
          isFloat := a.isFloat }
  else .error .indexError

/-- Lines 179-187 over the whole parameter dict, order preserved. -/
def applyMasks (s : DecState) (flagMask : List Bool) :
    ImgDict → Except PyErr ImgDict
  | [] => .ok []
  | (p, a) :: rest =>
    match applyMaskOne s flagMask a with
    | .error e => .error e
    | .ok a2 =>
      match applyMasks s flagMask rest with
      | .error e => .error e
      | .ok r2 => .ok ((p, a2) :: r2)

/-- Lines 189-198: drop the flag variable from data and metadata when it
was added only for filtering (i.e. it is not among the configured
parameters). -/
def popFlagVar (s : DecState) (ri : ImgDict) (rm : MetaDict) :
    ImgDict × MetaDict :=
  if (dictLookup ri (flagVarName s.oper)).isSome &&
      !(s.parameters.contains (flagVarName s.oper)) then
    (dictRemove ri (flagVarName s.oper), dictRemove rm (flagVarName s.oper))
  else (ri, rm)

/-- `SMOSL4Img._read_img` after a successful `Dataset` open: the
fallible decode loop over the (already state-updated) instance. -/
def readImgLoop (s : DecState) (ds : NCDataset) :
    Except PyErr (ImgDict × MetaDict) :=
  match buildParams ds (effParams s) with
  | .error e => .error e
  | .ok (pimg, pmeta) =>
    match computeFlagMask s pimg (effParams s) with
    | .error e => .error e
    | .ok flagMask =>
      match applyMasks s flagMask pimg with
      | .error e => .error e
      | .ok pimg2 => .ok (popFlagVar s pimg2 pmeta)

/-- `SMOSL4Img._read_img`: the state mutations of lines 133 and 138-141
(record global attributes; auto-detect the parameter list when none was
configured) happen right after the open, before any fallible step, so
they are applied unconditionally. -/
def readImgCore (s : DecState) (ds : NCDataset) :
    DecState × Except PyErr (ImgDict × MetaDict) :=
  let s1 := { s with
    glob_attrs := some ds.globalAttrs
    parameters := if s.parameters.isEmpty then multidimVars ds else s.parameters }
  (s1, readImgLoop s1 ds)

/-- `ndarray.reshape(r, c)` (ValueError on size mismatch), optionally
composed with `np.flipud`. -/
def reshapeArr (r c : Nat) (flip : Bool) (a : NDArr) : Except PyErr NDArr :=
  if a.cells.length = r * c then
    .ok { a with
          shape := [r, c]
          cells := if flip then flipCells r c a.cells else a.cells }
  else .error .valueError

/-- Lines 233-234: reshape-and-flip every data parameter. -/
def reshapeAllData (r c : Nat) : ImgDict → Except PyErr ImgDict
  | [] => .ok []
  | (p, a) :: rest =>
    match reshapeArr r c true a with
    | .error e => .error e
    | .ok a2 =>
      match reshapeAllData r c rest with
      | .error e => .error e
      | .ok r2 => .ok ((p, a2) :: r2)

/-- Lines 215-220: the guarded decode — on an `IOError` from the open,
warn and fall back to `_read_empty`; other decode exceptions are not
caught. -/
def readStep (s : DecState) (openResult : Except Unit NCDataset) :
    List RAct × DecState × Except PyErr (ImgDict × MetaDict) :=
  match openResult with
  | .error _ =>
    let (s1, ri, rm) := readEmpty s
    ([RAct.srcOpen, RAct.warn], s1, Except.ok (ri, rm))
  | .ok ds =>
    let (s1, r) := readImgCore s ds
    ([RAct.srcOpen], s1, r)

/-- Lines 222-241, the layout phase of `read`: in flatten mode the flat
arrays go into the image as they are; otherwise data and coordinates
are reshaped to the grid's `(rows, cols)` shape, with data and latitude
vertically flipped (the longitude raster is reshaped without flip).
The produced image is stored in `self.img`. -/
def layoutImage (s1 : DecState) (t : Int) (tr : List RAct)
    (ri : ImgDict) (rm : MetaDict) :
    List RAct × DecState × Except PyErr RasterImage :=
  if s1.flatten then
    let img : RasterImage :=
      { lon := flatArr s1.grid.activearrlon
        lat := flatArr s1.grid.activearrlat
        data := ri, metadata := rm, timestamp := some t }
    (tr, { s1 with img := some img }, .ok img)
  else
    match reshapeAllData s1.grid.rows s1.grid.cols ri with
    | .error e => (tr, s1, .error e)
    | .ok ri2 =>
      match reshapeArr s1.grid.rows s1.grid.cols false
          (flatArr s1.grid.activearrlon) with
      | .error e => (tr, s1, .error e)
      | .ok lonArr =>
        match reshapeArr s1.grid.rows s1.grid.cols true
            (flatArr s1.grid.activearrlat) with
        | .error e => (tr, s1, .error e)
        | .ok latArr =>
          let img : RasterImage :=
            { lon := lonArr, lat := latArr, data := ri2,
              metadata := rm, timestamp := some t }
          (tr, { s1 with img := some img }, .ok img)

def decoderRead (s : DecState) (ts : Option Int)
    (openResult : Except Unit NCDataset) :
    List RAct × DecState × Except PyErr RasterImage :=
  match ts with
  | none => ([], s, .error .valueError)
  | some t =>
    match readStep s openResult with
    | (tr, s1, .error e) => (tr, s1, .error e)
    | (tr, s1, .ok (ri, rm)) => layoutImage s1 t tr ri rm

/-- Lines 98-100 exclusion set of `get_global_attrs`. -/
def globAttrsExclude : List String :=
  ["history", "NCO", "netcdf_version_id", "contact", "institution",
   "creation_time"]

/-- `SMOSL4Img.get_global_attrs`: the stored global attributes minus the
fixed exclusion set (`None` when no source file was opened yet, where
Python would raise AttributeError). -/
def getGlobalAttrs (s : DecState) : Option AttrMap :=
  s.glob_attrs.map (fun ga =>
    ga.filter (fun kv => !(globAttrsExclude.contains kv.1)))

/-- Line 302 list of stale provenance keys removed on create. -/
def staleGlobKeys : List String :=
  ["ease_global", "history", "creation_time", "NCO"]

def dictRemoveKeys (m : AttrMap) (ks : List String) : AttrMap :=
  ks.foldl (fun acc k => dictRemove acc k) m

/-- Python `dict.update`: set each pair in order. -/
def dictUpdate (m : AttrMap) (kvs : AttrMap) : AttrMap :=
  kvs.foldl (fun acc kv => dictSet acc kv.1 kv.2) m

/-- The fresh provenance block of lines 297-300; `now`, `bbox` and `sw`
stand for the runtime creation time, grid bounding box and software
identity strings. -/
def provenanceAttrs (now bbox sw : AttrVal) : AttrMap :=
  [("subset_img_creation_time", now),
   ("subset_img_bbox_corners_latlon", bbox),
   ("subset_software", sw)]

/-- `SMOSL4Img.write`.  `fileExists` is the `os.path.isfile` outcome on
the target path; `now`/`bbox`/`sw` are the runtime provenance values.
Returns the action trace on the target file, the post-call instance
state, and either success or the escaping exception.  The precondition
failures of lines 258-262 raise before the target file is opened and
before any state change.  In create mode, lines 301-307 pop the stale
keys from `self.glob_attrs` and merge the provenance block in — through
the `glob_attrs = self.glob_attrs` alias this mutates the instance
state. -/
def imgWrite (s : DecState) (fileExists : Bool) (now bbox sw : AttrVal) :
    List WAct × DecState × Except PyErr Unit :=
  match s.img with
  | none => ([], s, .error .ioError)
  | some img =>
    match img.timestamp with
    | none => ([], s, .error .ioError)
    | some t =>
      if fileExists then
        (([WAct.targetOpen false, WAct.stampWrite t] ++
            img.data.map (fun kv => WAct.varWrite kv.1)), s, .ok ())
      else
        match s.glob_attrs with
        | none => ([WAct.targetOpen true], s, .error .attributeError)
        | some ga =>
          let ga2 := dictUpdate (dictRemoveKeys ga staleGlobKeys)
            (provenanceAttrs now bbox sw)
          (([WAct.targetOpen true, WAct.stampWrite t] ++
              img.data.map (fun kv => WAct.varWrite kv.1)),
           { s with glob_attrs := some ga2 }, .ok ())

/-- One day in model time units (minutes). -/
def dayMinutes : Int := 1440

/-- `SMOSL4Ds.tstamps_for_daterange` (lines 449-472): one timestamp per
day, `diff.days + 1` of them, starting at `start_date`.  `diff.days` is
Python floor division of the difference by one day. -/
def tstampsForDaterange (startD endD : Int) : List Int :=
  (List.range (((endD - startD).fdiv dayMinutes + 1).toNat)).map
    (fun (i : Nat) => startD + dayMinutes * (i : Int))

/-- Modelled from the spec: the file-resolution collaborator
(`pygeobase.MultiTemporalImageBase._build_filename` / `_open`, not under
`src/`).  Per spec section 4.3 a fresh decoder is driven per timestamp
with the resolved filepath, and an unresolvable or unopenable path is
treated as file-not-found, which `read` turns into a synthetic empty
image.  `src` maps a timestamp to the dataset behind its resolved file,
`none` when no file resolves or it cannot be opened. -/
def dsAssembleImg (cfg : ImgConfig) (src : Int → Option NCDataset)
    (t : Int) : DecState × Except PyErr RasterImage :=
  match src t with
  | some ds =>
    ((decoderRead (initImg cfg) (some t) (Except.ok ds)).2.1,
     (decoderRead (initImg cfg) (some t) (Except.ok ds)).2.2)
  | none =>
    ((decoderRead (initImg cfg) (some t) (Except.error ())).2.1,
     (decoderRead (initImg cfg) (some t) (Except.error ())).2.2)

/-- `SMOSL4Ds.write_multiple` loop body over an explicit timestamp list
(stack-file mode): read each timestamp, skip it when the decoder
reports `image_missing`, otherwise write one record; the stack file
exists once the first record was written.  Returns the list of written
timestamps (an escaping read or write exception propagates). -/
def writeMultipleGo (cfg : ImgConfig) (src : Int → Option NCDataset)
    (now bbox sw : AttrVal) : Bool → List Int → Except PyErr (List Int)
  | _, [] => .ok []
  | fe, t :: rest =>
    match (dsAssembleImg cfg src t).2 with
    | .error e => .error e
    | .ok _ =>
      if (dsAssembleImg cfg src t).1.image_missing then
        writeMultipleGo cfg src now bbox sw fe rest
      else
        match (imgWrite (dsAssembleImg cfg src t).1 fe now bbox sw).2.2 with
        | .error e => .error e
        | .ok _ =>
          match writeMultipleGo cfg src now bbox sw true rest with
          | .error e => .error e
          | .ok r => .ok (t :: r)

/-- `SMOSL4Ds.write_multiple` (lines 412-447) in stack-file mode over
the date range. -/
def writeMultiple (cfg : ImgConfig) (src : Int → Option NCDataset)
    (now bbox sw : AttrVal) (startD endD : Int) : Except PyErr (List Int) :=
  writeMultipleGo cfg src now bbox sw false (tstampsForDaterange startD endD)

/-! ### Concrete fixtures used by witnesses and counterexamples -/

/-- A tiny 2x2 grid with every point active, longitudes constant along
columns and latitudes constant along rows, ordered south to north. -/
def exGrid : GridModel :=
  { rows := 2, cols := 2
    activegpis := [0, 1, 2, 3]
    activearrlon := [Val.fin 0, Val.fin 1, Val.fin 0, Val.fin 1]
    activearrlat := [Val.fin 10, Val.fin 10, Val.fin 20, Val.fin 20] }

/-- A tiny source dataset: one soil-moisture variable, one quality-flag
variable, one single-axis coordinate variable (excluded from
auto-detection). -/
def exDs : NCDataset :=
  { vars :=
      [("SM",
        { ndim := 2, shape := [2, 2]
          data := [Val.fin 1, Val.fin 2, Val.nan, Val.fin 4]
          attrs := [("_FillValue", AttrVal.int (-999)),
                    ("units", AttrVal.str "m3 m-3")]
          isFloat := true }),
       ("QUAL",
        { ndim := 2, shape := [2, 2]
          data := [Val.fin 0, Val.fin 1, Val.fin 0, Val.fin 5]
          attrs := [("_FillValue", AttrVal.int (-1))]
          isFloat := false }),
       ("lat",
        { ndim := 1, shape := [2]
          data := [Val.fin 10, Val.fin 20]
          attrs := [("_FillValue", AttrVal.int (-1))]
          isFloat := true })]
    globalAttrs :=
      [("title", AttrVal.str "SMOS L4"),
       ("history", AttrVal.str "old"),
       ("creation_time", AttrVal.str "t0"),
       ("NCO", AttrVal.str "nco"),
       ("ease_global", AttrVal.str "g")] }

/-- Decoder configuration on the tiny grid, auto-detected parameters,
flag filtering accepting 0 and 1, non-flattened layout. -/
def exCfg : ImgConfig :=
  { parameters := none
    flatten := false
    grid := exGrid
    read_flags := some [Val.fin 0, Val.fin 1]
    oper := false
    float_fillval := some Val.nan }

/-- The same configuration with the flatten toggle on. -/
def exCfgFlat : ImgConfig :=
  { exCfg with flatten := true }

/-- The same configuration with one explicit parameter. -/
def exCfgSM : ImgConfig :=
  { exCfg with parameters := some ["SM"] }

/-- A placeholder image used only as the default of `Option.getD`. -/
def defaultImage : RasterImage :=
  { lon := flatArr [], lat := flatArr [], data := [], metadata := [],
    timestamp := none }

/-- Concrete flat-mode read of the fixture dataset. -/
def exReadFlat : List RAct × DecState × Except PyErr RasterImage :=
  decoderRead { initImg exCfg with flatten := true } (some 7) (Except.ok exDs)

/-- Concrete raster-mode read of the fixture dataset. -/
def exReadRast : List RAct × DecState × Except PyErr RasterImage :=
  decoderRead { initImg exCfg with flatten := false } (some 7) (Except.ok exDs)

def exImgFlat : RasterImage := exReadFlat.2.2.toOption.getD defaultImage

def exImgRast : RasterImage := exReadRast.2.2.toOption.getD defaultImage

/-- A source-file oracle with exactly one present date (timestamp 0). -/
def exSrc : Int → Option NCDataset := fun t => if t = 0 then some exDs else none

/-- A minimal already-read image carrying a timestamp. -/
def exSimpleImg : RasterImage := { defaultImage with timestamp := some 7 }

/-- A decoder state as left behind by a successful read: an image is
loaded and global attributes are recorded. -/
def exWriteState : DecState :=
  { initImg exCfg with
    img := some exSimpleImg
    glob_attrs := some exDs.globalAttrs }

/-! ### Helper lemmas -/

theorem dictLookup_dictSet_self {α : Type} (m : List (String × α)) (k : String)
    (v : α) : dictLookup (dictSet m k v) k = some v := by
  induction m with
  | nil => simp [dictSet, dictLookup]
  | cons kv rest ih =>
    by_cases h : kv.1 = k
    · simp [dictSet, dictLookup, h]
    · simpa [dictSet, dictLookup, h] using ih

theorem dictLookup_dictSet_other {α : Type} (m : List (String × α))
    (k k2 : String) (v : α) (hne : k2 ≠ k) :
    dictLookup (dictSet m k v) k2 = dictLookup m k2 := by
  have hk : ¬k = k2 := fun hh => hne hh.symm
  induction m with
  | nil => simp [dictSet, dictLookup, hk]
  | cons kv rest ih =>
    by_cases h : kv.1 = k
    · simp [dictSet, dictLookup, h, hk]
    · by_cases h2 : kv.1 = k2
      · simp [dictSet, dictLookup, h, h2, hne]
      · simpa [dictSet, dictLookup, h, h2] using ih

theorem dictLookup_dictRemove {α : Type} (m : List (String × α))
    (k k2 : String) :
    dictLookup (dictRemove m k) k2 =
      if k2 = k then none else dictLookup m k2 := by
  induction m with
  | nil => simp [dictRemove, dictLookup]
  | cons kv rest ih =>
    by_cases h : kv.1 = k
    · rw [dictRemove, if_pos h, ih]
      by_cases h2 : k2 = k
      · simp [h2]
      · have : kv.1 ≠ k2 := fun hh => h2 (hh.symm.trans h)
        simp [dictLookup, h2, this]
    · rw [dictRemove, if_neg h]
      by_cases h2 : kv.1 = k2
      · have : ¬k2 = k := fun hh => h (h2.trans hh)
        simp [dictLookup, h2, this]
      · simp only [dictLookup, h2, if_false, ih]

theorem dictKeys_dictRemove {α : Type} (m : List (String × α)) (k : String) :
    dictKeys (dictRemove m k) = (dictKeys m).filter (fun k2 => k2 != k) := by
  induction m with
  | nil => rfl
  | cons kv rest ih =>
    by_cases h : kv.1 = k
    · rw [dictRemove, if_pos h, ih]
      simp only [dictKeys, List.map_cons, List.filter_cons]
      rw [if_neg (by simp [h])]
    · rw [dictRemove, if_neg h]
      simp only [dictKeys, List.map_cons, List.filter_cons] at ih ⊢
      rw [if_pos (by simp [h]), ih]

theorem mem_dictRemove {α : Type} {m : List (String × α)} {k : String}
    {kv : String × α} (h : kv ∈ dictRemove m k) : kv ∈ m := by
  induction m with
  | nil => simp [dictRemove] at h
  | cons kv2 rest ih =>
    rw [dictRemove] at h
    by_cases h2 : kv2.1 = k
    · rw [if_pos h2] at h
      exact List.mem_cons_of_mem _ (ih h)
    · rw [if_neg h2] at h
      rcases List.mem_cons.mp h with h | h
      · exact h ▸ List.mem_cons_self _ _
      · exact List.mem_cons_of_mem _ (ih h)

/-- `chunkN` always produces `r` rows. -/
theorem chunkN_length {α : Type} (r c : Nat) (l : List α) :
    (chunkN r c l).length = r := by
  induction r generalizing l with
  | zero => rfl
  | succ r0 ih => simp [chunkN, ih]

theorem chunkN_row_length {α : Type} (r c : Nat) (l : List α)
    (h : l.length = r * c) :
    ∀ row ∈ chunkN r c l, row.length = c := by
  induction r generalizing l with
  | zero => intro row hrow; simp [chunkN] at hrow
  | succ r0 ih =>
    intro row hrow
    rw [chunkN] at hrow
    rcases List.mem_cons.mp hrow with hrow | hrow
    · subst hrow
      simp only [List.length_take, h, Nat.succ_mul]
      omega
    · refine ih (l.drop c) ?_ row hrow
      simp only [List.length_drop, h, Nat.succ_mul]
      omega

theorem chunkN_flatten {α : Type} (r c : Nat) (l : List α)
    (h : l.length = r * c) : (chunkN r c l).flatten = l := by
  induction r generalizing l with
  | zero =>
    have hl : l = [] := List.length_eq_zero.mp (by simpa using h)
    subst hl; rfl
  | succ r0 ih =>
    rw [chunkN, List.flatten_cons, ih (l.drop c)
      (by simp only [List.length_drop, h, Nat.succ_mul]; omega),
      List.take_append_drop]

theorem flatten_reverse_perm {α : Type} (ll : List (List α)) :
    (ll.reverse).flatten.Perm ll.flatten := by
  induction ll with
  | nil => simp
  | cons x xs ih =>
    simp only [List.reverse_cons, List.flatten_append, List.flatten_cons]
    have h1 : (xs.reverse.flatten ++ [x].flatten).Perm (xs.flatten ++ [x].flatten) :=
      ih.append_right _
    refine h1.trans ?_
    simp only [List.flatten_cons, List.flatten_nil, List.append_nil]
    exact List.perm_append_comm

/-- Flipping a raster permutes its cells. -/
theorem flipCells_perm {α : Type} (r c : Nat) (l : List α)
    (h : l.length = r * c) : (flipCells r c l).Perm l := by
  unfold flipCells
  exact (flatten_reverse_perm _).trans (by rw [chunkN_flatten r c l h])

theorem chunkN_replicate {α : Type} (r c : Nat) (x : α) :
    chunkN r c (List.replicate (r * c) x) =
      List.replicate r (List.replicate c x) := by
  induction r with
  | zero => rfl
  | succ r0 ih =>
    have hm : (r0 + 1) * c = c + r0 * c := by ring
    have ht : List.take c (List.replicate (c + r0 * c) x) = List.replicate c x := by
      rw [List.take_replicate]
      congr 1
      omega
    have hd : List.drop c (List.replicate (c + r0 * c) x) =
        List.replicate (r0 * c) x := by
      rw [List.drop_replicate]
      congr 1
      omega
    rw [hm, chunkN, ht, hd, ih, List.replicate_succ]

theorem flatten_replicate {α : Type} (r c : Nat) (x : α) :
    (List.replicate r (List.replicate c x)).flatten =
      List.replicate (r * c) x := by
  induction r with
  | zero => simp
  | succ r0 ih =>
    rw [List.replicate_succ, List.flatten_cons, ih,
      show (r0 + 1) * c = c + r0 * c by ring, List.replicate_add]

theorem flipCells_replicate {α : Type} (r c : Nat) (x : α) :
    flipCells r c (List.replicate (r * c) x) = List.replicate (r * c) x := by
  unfold flipCells
  rw [chunkN_replicate, List.reverse_replicate, flatten_replicate]

/-! ### C4: tstamps_for_daterange -/

theorem tstamps_eq (startD endD : Int) :
    tstampsForDaterange startD endD =
      (List.range (((endD - startD).fdiv dayMinutes + 1).toNat)).map
        (fun (i : Nat) => startD + dayMinutes * (i : Int)) := rfl

/-- C4 (counterexample): with `start = 0` and `end = 2160` (one and a
half days later, so `start <= end`), the produced sequence is
`[0, 1440]` and the end input `2160` is not included — contradicting
the claim that both endpoints are always included when
`start <= end`. -/
theorem c4_endpoint_cex :
    ((0 : Int) ≤ 2160) ∧ tstampsForDaterange 0 2160 = [0, 1440] ∧
      (2160 : Int) ∉ tstampsForDaterange 0 2160 := by decide

/-- C4 (amended): for `start <= end`, `tstamps_for_daterange` returns
the strictly increasing day-granularity sequence
`start + k * 1day` for natural `k <= floor((end - start) / 1day)`: the
start endpoint is always included, and the end endpoint is included
exactly when `end - start` is a whole number of days (in particular for
midnight date inputs such as 2020-01-01 .. 2020-01-03, which yield
exactly the three midnight timestamps). -/
theorem c4_daterange_amended (startD endD : Int) (h : startD ≤ endD) :
    List.Pairwise (· < ·) (tstampsForDaterange startD endD) ∧
    (∀ t : Int, t ∈ tstampsForDaterange startD endD ↔
      ∃ k : Nat, (k : Int) ≤ (endD - startD).fdiv dayMinutes ∧
        t = startD + dayMinutes * (k : Int)) ∧
    startD ∈ tstampsForDaterange startD endD ∧
    (dayMinutes ∣ (endD - startD) →
      endD ∈ tstampsForDaterange startD endD) := by
  have hq : 0 ≤ (endD - startD).fdiv dayMinutes :=
    Int.fdiv_nonneg (by omega) (by norm_num [dayMinutes])
  have hmem : ∀ t : Int, t ∈ tstampsForDaterange startD endD ↔
      ∃ k : Nat, (k : Int) ≤ (endD - startD).fdiv dayMinutes ∧
        t = startD + dayMinutes * (k : Int) := by
    intro t
    rw [tstamps_eq]
    constructor
    · intro ht
      rcases List.mem_map.mp ht with ⟨k, hk, hkt⟩
      have hk2 : (k : Int) < (endD - startD).fdiv dayMinutes + 1 :=
        Int.lt_toNat.mp (List.mem_range.mp hk)
      exact ⟨k, by omega, hkt.symm⟩
    · rintro ⟨k, hk, rfl⟩
      refine List.mem_map.mpr ⟨k, List.mem_range.mpr ?_, rfl⟩
      rw [Int.lt_toNat]
      omega
  refine ⟨?_, hmem, ?_, ?_⟩
  · rw [tstamps_eq, List.pairwise_map]
    refine (List.pairwise_lt_range _).imp ?_
    intro a b hab
    have hab2 : (a : Int) < (b : Int) := by exact_mod_cast hab
    simp only [dayMinutes]
    omega
  · exact (hmem startD).mpr ⟨0, by simpa using hq, by simp⟩
  · rintro ⟨c, hc⟩
    have hc0 : 0 ≤ c := by
      simp only [dayMinutes] at hc
      omega
    refine (hmem endD).mpr ⟨c.toNat, ?_, ?_⟩
    · rw [hc, Int.mul_fdiv_cancel_left _ (by norm_num [dayMinutes])]
      omega
    · rw [Int.toNat_of_nonneg hc0]
      simp only [dayMinutes] at hc ⊢
      omega

/-- C4 (witness): the concrete three-day instance of the amended claim:
with the epoch at 2020-01-01T00:00 the date inputs 2020-01-01 and
2020-01-03 are minutes 0 and 2880, the result is the three midnight
timestamps, and both endpoints are members. -/
theorem c4_witness :
    tstampsForDaterange 0 2880 = [0, 1440, 2880] ∧
      (0 : Int) ∈ tstampsForDaterange 0 2880 ∧
      (2880 : Int) ∈ tstampsForDaterange 0 2880 := by
  refine ⟨by decide, ?_, ?_⟩
  · exact (c4_daterange_amended 0 2880 (by decide)).2.2.1
  · exact (c4_daterange_amended 0 2880 (by decide)).2.2.2 ⟨2, by decide⟩

theorem dictKeys_map_const {α : Type} (ps : List String) (g : String → α) :
    dictKeys (ps.map (fun p => (p, g p))) = ps := by
  induction ps with
  | nil => rfl
  | cons p ps ih =>
    simp only [dictKeys, List.map_cons] at ih ⊢
    rw [ih]

theorem mem_map_pair {α : Type} {ps : List String} {a : α} {pa : String × α}
    (h : pa ∈ ps.map (fun p => (p, a))) : pa.2 = a := by
  rcases List.mem_map.mp h with ⟨p, _, rfl⟩
  rfl

/-- Reshaping a parameter dict whose entries all hold one identical
array of exact raster size succeeds entrywise. -/
theorem reshapeAllData_map_empty (r c : Nat) (ps : List String) (a : NDArr)
    (ha : a.cells.length = r * c) :
    reshapeAllData r c (ps.map (fun p => (p, a))) =
      Except.ok (ps.map (fun p =>
        (p, { a with shape := [r, c], cells := flipCells r c a.cells }))) := by
  induction ps with
  | nil => rfl
  | cons p ps ih =>
    simp only [List.map_cons, reshapeAllData, reshapeArr, ha, if_pos, ih]

/-- The empty-image fallback of `read` characterized: on any open
failure, `read` warns and succeeds with a synthetic image whose
metadata is exactly `{image_missing: 1}` per configured parameter and
whose data arrays are all-NaN of raster size, flat in flatten mode and
`(rows, cols)`-shaped otherwise. -/
theorem decoderRead_empty_char (s : DecState) (t : Int)
    (h1 : s.grid.activearrlon.length = s.grid.rows * s.grid.cols)
    (h2 : s.grid.activearrlat.length = s.grid.rows * s.grid.cols) :
    ∃ img : RasterImage,
      decoderRead s (some t) (Except.error ()) =
        ([RAct.srcOpen, RAct.warn],
         { s with image_missing := true, img := some img }, Except.ok img) ∧
      img.timestamp = some t ∧
      img.metadata = s.parameters.map
        (fun p => (p, [("image_missing", AttrVal.int 1)])) ∧
      dictKeys img.data = s.parameters ∧
      ∀ pa ∈ img.data,
        (pa : String × NDArr).2.cells =
          List.replicate (s.grid.rows * s.grid.cols)
            { val := Val.nan, msk := false } ∧
        pa.2.shape = (if s.flatten then [s.grid.rows * s.grid.cols]
                      else [s.grid.rows, s.grid.cols]) := by
  by_cases hf : s.flatten
  · refine ⟨{ lon := flatArr s.grid.activearrlon
              lat := flatArr s.grid.activearrlat
              data := s.parameters.map (fun p =>
                (p, { shape := [s.grid.rows * s.grid.cols]
                      cells := List.replicate (s.grid.rows * s.grid.cols)
                        { val := Val.nan, msk := false }
                      fill := none, isFloat := true }))
              metadata := s.parameters.map
                (fun p => (p, [("image_missing", AttrVal.int 1)]))
              timestamp := some t }, ?_, rfl, rfl, dictKeys_map_const _ _, ?_⟩
    · simp only [decoderRead, readStep, readEmpty, layoutImage, hf, if_true]
    · intro pa hpa
      have hv := mem_map_pair hpa
      rw [hv, hf]
      exact ⟨rfl, rfl⟩
  · have ha : (List.replicate (s.grid.rows * s.grid.cols)
        ({ val := Val.nan, msk := false } : Cell)).length =
        s.grid.rows * s.grid.cols := by simp
    refine ⟨{ lon := { shape := [s.grid.rows, s.grid.cols]
                       cells := (flatArr s.grid.activearrlon).cells
                       fill := none, isFloat := true }
              lat := { shape := [s.grid.rows, s.grid.cols]
                       cells := flipCells s.grid.rows s.grid.cols
                         (flatArr s.grid.activearrlat).cells
                       fill := none, isFloat := true }
              data := s.parameters.map (fun p =>
                (p, { shape := [s.grid.rows, s.grid.cols]
                      cells := flipCells s.grid.rows s.grid.cols
                        (List.replicate (s.grid.rows * s.grid.cols)
                          { val := Val.nan, msk := false })
                      fill := none, isFloat := true }))
              metadata := s.parameters.map
                (fun p => (p, [("image_missing", AttrVal.int 1)]))
              timestamp := some t }, ?_, rfl, rfl, dictKeys_map_const _ _, ?_⟩
    · have hall := reshapeAllData_map_empty s.grid.rows s.grid.cols
        s.parameters
        ({ shape := [s.grid.rows * s.grid.cols]
           cells := List.replicate (s.grid.rows * s.grid.cols)
             { val := Val.nan, msk := false }
           fill := none, isFloat := true } : NDArr) (by simp)
      have hlon : reshapeArr s.grid.rows s.grid.cols false
          (flatArr s.grid.activearrlon) =
          Except.ok { shape := [s.grid.rows, s.grid.cols]
                      cells := (flatArr s.grid.activearrlon).cells
                      fill := none, isFloat := true } := by
        simp [reshapeArr, flatArr, h1]
      have hlat : reshapeArr s.grid.rows s.grid.cols true
          (flatArr s.grid.activearrlat) =
          Except.ok { shape := [s.grid.rows, s.grid.cols]
                      cells := flipCells s.grid.rows s.grid.cols
                        (flatArr s.grid.activearrlat).cells
                      fill := none, isFloat := true } := by
        simp [reshapeArr, flatArr, h2]
      simp only [decoderRead, readStep, readEmpty, layoutImage, hf,
        Bool.false_eq_true, if_false, hall, hlon, hlat]
    · intro pa hpa
      have hv := mem_map_pair hpa
      rw [hv, if_neg hf]
      exact ⟨flipCells_replicate _ _ _, rfl⟩

/-! ### C1: synthetic empty image content -/

/-- C1 (counterexample): with the flatten toggle off (the default), the
parameter "SM", a 2x2 grid and an unopenable source file, the returned
data array for "SM" has the 2D shape `[2, 2]` — it is not flattened
(its shape is not `[rows * cols] = [4]`), contradicting the claim that
the data array of the returned RasterImage is flattened. -/
theorem c1_flattened_shape_cex :
    ((decoderRead (initImg exCfgSM) (some 5) (Except.error ())).2.2.toOption.bind
        (fun img => dictLookup img.data "SM")).map NDArr.shape =
      some [2, 2] ∧
    [2, 2] ≠ [exGrid.rows * exGrid.cols] := by decide

/-- C1 (amended): for every timestamp with no openable source file,
`read` returns a RasterImage in which every requested parameter's
metadata is exactly `{image_missing: 1}` and that parameter's data is
an all-NaN array with `rows * cols` cells; the array is flat (shape
`[rows * cols]`) when the flatten toggle is on, and reshaped to
`(rows, cols)` when it is off. -/
theorem c1_empty_read_amended (s : DecState) (t : Int)
    (h1 : s.grid.activearrlon.length = s.grid.rows * s.grid.cols)
    (h2 : s.grid.activearrlat.length = s.grid.rows * s.grid.cols) :
    ∃ img : RasterImage,
      (decoderRead s (some t) (Except.error ())).2.2 = Except.ok img ∧
      img.metadata = s.parameters.map
        (fun p => (p, [("image_missing", AttrVal.int 1)])) ∧
      dictKeys img.data = s.parameters ∧
      ∀ pa ∈ img.data,
        (pa : String × NDArr).2.cells =
          List.replicate (s.grid.rows * s.grid.cols)
            { val := Val.nan, msk := false } ∧
        pa.2.shape = (if s.flatten then [s.grid.rows * s.grid.cols]
                      else [s.grid.rows, s.grid.cols]) := by
  obtain ⟨img, heq, _, hmeta, hkeys, hdata⟩ := decoderRead_empty_char s t h1 h2
  exact ⟨img, by rw [heq], hmeta, hkeys, hdata⟩

/-- C1 (witness): the amended claim evaluated on the concrete 2x2
fixture with parameter "SM", flatten off. -/
theorem c1_witness :
    (initImg exCfgSM).grid.activearrlon.length =
        (initImg exCfgSM).grid.rows * (initImg exCfgSM).grid.cols ∧
    ∃ img : RasterImage,
      (decoderRead (initImg exCfgSM) (some 5) (Except.error ())).2.2 =
        Except.ok img ∧
      img.metadata = (initImg exCfgSM).parameters.map
        (fun p => (p, [("image_missing", AttrVal.int 1)])) ∧
      dictKeys img.data = (initImg exCfgSM).parameters ∧
      ∀ pa ∈ img.data,
        (pa : String × NDArr).2.cells =
          List.replicate
            ((initImg exCfgSM).grid.rows * (initImg exCfgSM).grid.cols)
            { val := Val.nan, msk := false } ∧
        pa.2.shape = (if (initImg exCfgSM).flatten
                      then [(initImg exCfgSM).grid.rows *
                            (initImg exCfgSM).grid.cols]
                      else [(initImg exCfgSM).grid.rows,
                            (initImg exCfgSM).grid.cols]) :=
  ⟨by decide, c1_empty_read_amended (initImg exCfgSM) 5 (by decide) (by decide)⟩

/-! ### C2: open errors do not escape read -/

/-- C2: for every non-null timestamp, when the source open fails with an
I/O error (file absent, permission denied, corruption — all modelled as
the caught `IOError`), `read` does not propagate any exception: it
returns a synthetic image successfully and the trace records the
non-fatal warning. -/
theorem c2_no_exception_on_open_error (s : DecState) (t : Int)
    (h1 : s.grid.activearrlon.length = s.grid.rows * s.grid.cols)
    (h2 : s.grid.activearrlat.length = s.grid.rows * s.grid.cols) :
    ∃ img : RasterImage,
      (decoderRead s (some t) (Except.error ())).2.2 = Except.ok img ∧
      RAct.warn ∈ (decoderRead s (some t) (Except.error ())).1 := by
  obtain ⟨img, heq, _⟩ := decoderRead_empty_char s t h1 h2
  refine ⟨img, by rw [heq], by rw [heq]; simp⟩

/-- C2 (witness): the concrete fixture decoder recovers from an open
failure with a warning and no escaping exception. -/
theorem c2_witness :
    (initImg exCfg).grid.activearrlon.length =
        (initImg exCfg).grid.rows * (initImg exCfg).grid.cols ∧
    ∃ img : RasterImage,
      (decoderRead (initImg exCfg) (some 3) (Except.error ())).2.2 =
        Except.ok img ∧
      RAct.warn ∈ (decoderRead (initImg exCfg) (some 3) (Except.error ())).1 :=
  ⟨by decide, c2_no_exception_on_open_error (initImg exCfg) 3 (by decide)
    (by decide)⟩

/-! ### Decode-pipeline invariants (towards C3 and C7) -/

theorem buildParams_ok (ds : NCDataset) (px : List String) (ri : ImgDict)
    (rm : MetaDict) (h : buildParams ds px = Except.ok (ri, rm)) :
    dictKeys ri = px ∧ dictKeys rm = px ∧
    ∀ pm ∈ rm, dictLookup (pm : String × AttrMap).2 "image_missing" =
      some (AttrVal.int 0) := by
  induction px generalizing ri rm with
  | nil =>
    simp only [buildParams, Except.ok.injEq, Prod.mk.injEq] at h
    obtain ⟨h1, h2⟩ := h
    subst h1
    subst h2
    exact ⟨rfl, rfl, by simp⟩
  | cons p rest ih =>
    rw [buildParams] at h
    split at h
    · cases h
    · split at h
      · cases h
      · split at h
        · cases h
        · next ri0 rm0 hrec =>
          simp only [Except.ok.injEq, Prod.mk.injEq] at h
          obtain ⟨h1, h2⟩ := h
          subst h1
          subst h2
          obtain ⟨hk1, hk2, hmeta⟩ := ih ri0 rm0 hrec
          refine ⟨?_, ?_, ?_⟩
          · simp only [dictKeys, List.map_cons] at hk1 ⊢
            rw [hk1]
          · simp only [dictKeys, List.map_cons] at hk2 ⊢
            rw [hk2]
          · intro pm hpm
            rcases List.mem_cons.mp hpm with hpm | hpm
            · subst hpm
              exact dictLookup_dictSet_self _ _ _
            · exact hmeta pm hpm

theorem applyMaskOne_ok (s : DecState) (fm : List Bool) (a a2 : NDArr)
    (h : applyMaskOne s fm a = Except.ok a2) :
    a2.shape = [s.grid.activegpis.length] ∧
    a2.cells.length = s.grid.activegpis.length := by
  unfold applyMaskOne at h
  split at h
  · cases h
  · split at h
    · injection h with h2
      subst h2
      exact ⟨rfl, by simp⟩
    · cases h

theorem applyMasks_ok (s : DecState) (fm : List Bool) (ri ri2 : ImgDict)
    (h : applyMasks s fm ri = Except.ok ri2) :
    dictKeys ri2 = dictKeys ri ∧
    ∀ pa ∈ ri2, (pa : String × NDArr).2.shape = [s.grid.activegpis.length] ∧
      pa.2.cells.length = s.grid.activegpis.length := by
  induction ri generalizing ri2 with
  | nil =>
    simp only [applyMasks, Except.ok.injEq] at h
    subst h
    exact ⟨rfl, by simp⟩
  | cons pa0 rest ih =>
    obtain ⟨p0, a0⟩ := pa0
    rw [applyMasks] at h
    cases h1 : applyMaskOne s fm a0 with
    | error e => rw [h1] at h; cases h
    | ok a2 =>
      rw [h1] at h
      cases hrec : applyMasks s fm rest with
      | error e => rw [hrec] at h; cases h
      | ok r2 =>
        rw [hrec] at h
        simp only [Except.ok.injEq] at h
        subst h
        obtain ⟨hk, hmem⟩ := ih r2 hrec
        refine ⟨?_, ?_⟩
        · simp only [dictKeys, List.map_cons] at hk ⊢
          rw [hk]
        · intro pa hpa
          rcases List.mem_cons.mp hpa with hpa | hpa
          · subst hpa
            exact applyMaskOne_ok s fm a0 a2 h1
          · exact hmem pa hpa

theorem popFlagVar_out (s : DecState) (ri : ImgDict) (rm : MetaDict)
    (ri2 : ImgDict) (rm2 : MetaDict)
    (h : popFlagVar s ri rm = (ri2, rm2)) :
    (ri2 = ri ∧ rm2 = rm) ∨
    (ri2 = dictRemove ri (flagVarName s.oper) ∧
     rm2 = dictRemove rm (flagVarName s.oper)) := by
  unfold popFlagVar at h
  split at h
  · simp only [Prod.mk.injEq] at h
    exact Or.inr ⟨h.1.symm, h.2.symm⟩
  · simp only [Prod.mk.injEq] at h
    exact Or.inl ⟨h.1.symm, h.2.symm⟩

theorem reshapeArr_ok (r c : Nat) (fl : Bool) (a a2 : NDArr)
    (h : reshapeArr r c fl a = Except.ok a2) :
    a.cells.length = r * c ∧ a2.shape = [r, c] ∧
    a2.cells = (if fl then flipCells r c a.cells else a.cells) ∧
    a2.fill = a.fill ∧ a2.isFloat = a.isFloat := by
  unfold reshapeArr at h
  split at h
  · next hc =>
    injection h with h2
    subst h2
    exact ⟨hc, rfl, rfl, rfl, rfl⟩
  · cases h

theorem reshapeAllData_ok_keys (r c : Nat) (ri ri2 : ImgDict)
    (h : reshapeAllData r c ri = Except.ok ri2) :
    dictKeys ri2 = dictKeys ri ∧
    ∀ pa ∈ ri2, (pa : String × NDArr).2.shape = [r, c] := by
  induction ri generalizing ri2 with
  | nil =>
    simp only [reshapeAllData, Except.ok.injEq] at h
    subst h
    exact ⟨rfl, by simp⟩
  | cons pa0 rest ih =>
    obtain ⟨p0, a0⟩ := pa0
    rw [reshapeAllData] at h
    cases h1 : reshapeArr r c true a0 with
    | error e => rw [h1] at h; cases h
    | ok a2 =>
      rw [h1] at h
      cases hrec : reshapeAllData r c rest with
      | error e => rw [hrec] at h; cases h
      | ok r2 =>
        rw [hrec] at h
        simp only [Except.ok.injEq] at h
        subst h
        obtain ⟨hk, hmem⟩ := ih r2 hrec
        refine ⟨?_, ?_⟩
        · simp only [dictKeys, List.map_cons] at hk ⊢
          rw [hk]
        · intro pa hpa
          rcases List.mem_cons.mp hpa with hpa | hpa
          · subst hpa
            exact (reshapeArr_ok r c true a0 a2 h1).2.1
          · exact hmem pa hpa

theorem readImgLoop_ok (s : DecState) (ds : NCDataset) (ri : ImgDict)
    (rm : MetaDict) (h : readImgLoop s ds = Except.ok (ri, rm)) :
    dictKeys ri = dictKeys rm ∧
    (∀ pa ∈ ri, (pa : String × NDArr).2.shape = [s.grid.activegpis.length] ∧
      pa.2.cells.length = s.grid.activegpis.length) ∧
    (∀ pm ∈ rm, dictLookup (pm : String × AttrMap).2 "image_missing" =
      some (AttrVal.int 0)) := by
  unfold readImgLoop at h
  cases hbp : buildParams ds (effParams s) with
  | error e => rw [hbp] at h; cases h
  | ok pr =>
    obtain ⟨pimg, pmeta⟩ := pr
    rw [hbp] at h
    simp only [] at h
    cases hfm : computeFlagMask s pimg (effParams s) with
    | error e => rw [hfm] at h; cases h
    | ok fm =>
      rw [hfm] at h
      simp only [] at h
      cases ham : applyMasks s fm pimg with
      | error e => rw [ham] at h; cases h
      | ok pimg2 =>
        rw [ham] at h
        simp only [] at h
        injection h with h2
        obtain ⟨hbk1, hbk2, hbmeta⟩ := buildParams_ok ds _ pimg pmeta hbp
        obtain ⟨hak, hamem⟩ := applyMasks_ok s fm pimg pimg2 ham
        rcases popFlagVar_out s pimg2 pmeta ri rm h2 with
          ⟨he1, he2⟩ | ⟨he1, he2⟩
        · subst he1
          subst he2
          exact ⟨hak.trans (hbk1.trans hbk2.symm), hamem, hbmeta⟩
        · subst he1
          subst he2
          refine ⟨?_, ?_, ?_⟩
          · rw [dictKeys_dictRemove, dictKeys_dictRemove, hak, hbk1, hbk2]
          · intro pa hpa
            exact hamem pa (mem_dictRemove hpa)
          · intro pm hpm
            exact hbmeta pm (mem_dictRemove hpm)

theorem decoderRead_err_step (s : DecState) (t : Int)
    (o : Except Unit NCDataset) (tr : List RAct) (s1 : DecState) (e : PyErr)
    (h : readStep s o = (tr, s1, Except.error e)) :
    decoderRead s (some t) o = (tr, s1, Except.error e) := by
  unfold decoderRead
  rw [h]

theorem decoderRead_ok_step (s : DecState) (t : Int)
    (o : Except Unit NCDataset) (tr : List RAct) (s1 : DecState)
    (ri : ImgDict) (rm : MetaDict)
    (h : readStep s o = (tr, s1, Except.ok (ri, rm))) :
    decoderRead s (some t) o = layoutImage s1 t tr ri rm := by
  unfold decoderRead
  rw [h]

/-- Invariants of the pre-layout decode step, for both the real-decode
and the synthetic-empty path: data and metadata have the same keys,
data arrays share one flat size, and the `image_missing` tag is uniform
(0 on the real path, 1 on the synthetic path). -/
theorem readStep_ok_inv (s : DecState) (o : Except Unit NCDataset)
    (tr : List RAct) (s1 : DecState) (ri : ImgDict) (rm : MetaDict)
    (h : readStep s o = (tr, s1, Except.ok (ri, rm))) :
    s1.grid = s.grid ∧
    dictKeys ri = dictKeys rm ∧
    (∃ n : Nat, ∀ pa ∈ ri, (pa : String × NDArr).2.shape = [n] ∧
      pa.2.cells.length = n) ∧
    (∃ b : Int, (b = 0 ∨ b = 1) ∧ ∀ pm ∈ rm,
      dictLookup (pm : String × AttrMap).2 "image_missing" =
        some (AttrVal.int b)) := by
  cases o with
  | error e =>
    simp only [readStep, readEmpty, Prod.mk.injEq, Except.ok.injEq] at h
    obtain ⟨-, hs1, hri, hrm⟩ := h
    subst hs1
    subst hri
    subst hrm
    refine ⟨rfl, ?_, ?_, ?_⟩
    · rw [dictKeys_map_const, dictKeys_map_const]
    · refine ⟨s.grid.rows * s.grid.cols, ?_⟩
      intro pa hpa
      rw [mem_map_pair hpa]
      exact ⟨rfl, by simp⟩
    · refine ⟨1, Or.inr rfl, ?_⟩
      intro pm hpm
      rw [mem_map_pair hpm]
      rfl
  | ok ds =>
    simp only [readStep, readImgCore, Prod.mk.injEq] at h
    obtain ⟨-, hs1, hloop⟩ := h
    subst hs1
    obtain ⟨hk, hsh, hmeta⟩ := readImgLoop_ok _ ds ri rm hloop
    exact ⟨rfl, hk, ⟨_, hsh⟩, ⟨0, Or.inl rfl, hmeta⟩⟩

/-! ### C3: RasterImage invariants -/

/-- C3: every RasterImage returned by `read` satisfies the spec's
invariant — data and metadata have exactly the same parameter keys, all
parameter arrays share one identical shape, and the `image_missing`
metadata value is one uniform value (0 or 1) across all parameters: an
image is never partially synthetic. -/
theorem c3_raster_image_invariants (s : DecState) (ts : Option Int)
    (o : Except Unit NCDataset) (img : RasterImage)
    (h : (decoderRead s ts o).2.2 = Except.ok img) :
    dictKeys img.data = dictKeys img.metadata ∧
    (∃ S : List Nat, ∀ pa ∈ img.data, (pa : String × NDArr).2.shape = S) ∧
    (∃ b : Int, (b = 0 ∨ b = 1) ∧ ∀ pm ∈ img.metadata,
      dictLookup (pm : String × AttrMap).2 "image_missing" =
        some (AttrVal.int b)) := by
  cases ts with
  | none => simp [decoderRead] at h
  | some t =>
    rcases hstep : readStep s o with ⟨tr, s1, res⟩
    cases res with
    | error e =>
      rw [decoderRead_err_step s t o tr s1 e hstep] at h
      simp at h
    | ok pr =>
      obtain ⟨ri, rm⟩ := pr
      rw [decoderRead_ok_step s t o tr s1 ri rm hstep] at h
      obtain ⟨-, hkeys, ⟨n, hsh⟩, hb⟩ :=
        readStep_ok_inv s o tr s1 ri rm hstep
      unfold layoutImage at h
      split at h
      · simp only [Except.ok.injEq] at h
        subst h
        exact ⟨hkeys, ⟨[n], fun pa hpa => (hsh pa hpa).1⟩, hb⟩
      · split at h
        · simp at h
        · next ri2 hra =>
          split at h
          · simp at h
          · next lonA hlon =>
            split at h
            · simp at h
            · next latA hlat =>
              simp only [Except.ok.injEq] at h
              subst h
              obtain ⟨hk2, hsh2⟩ :=
                reshapeAllData_ok_keys s1.grid.rows s1.grid.cols ri ri2 hra
              exact ⟨hk2.trans hkeys,
                ⟨[s1.grid.rows, s1.grid.cols], hsh2⟩, hb⟩

/-- C3 (witness): the invariant instantiated on a concrete successful
decode of the fixture dataset. -/
theorem c3_witness :
    dictKeys exImgRast.data = dictKeys exImgRast.metadata ∧
    (∃ S : List Nat, ∀ pa ∈ exImgRast.data,
      (pa : String × NDArr).2.shape = S) ∧
    (∃ b : Int, (b = 0 ∨ b = 1) ∧ ∀ pm ∈ exImgRast.metadata,
      dictLookup (pm : String × AttrMap).2 "image_missing" =
        some (AttrVal.int b)) :=
  c3_raster_image_invariants { initImg exCfg with flatten := false }
    (some 7) (Except.ok exDs) exImgRast rfl

/-! ### C7: the flatten toggle -/

theorem dictLookup_mem {α : Type} {m : List (String × α)} {k : String}
    {v : α} (h : dictLookup m k = some v) : (k, v) ∈ m := by
  induction m with
  | nil => simp [dictLookup] at h
  | cons kv rest ih =>
    rw [dictLookup] at h
    by_cases h2 : kv.1 = k
    · rw [if_pos h2] at h
      injection h with h3
      subst h3
      subst h2
      exact List.mem_cons_self _ _
    · rw [if_neg h2] at h
      exact List.mem_cons_of_mem _ (ih h)

theorem reshapeAllData_lookup (r c : Nat) (ri ri2 : ImgDict)
    (h : reshapeAllData r c ri = Except.ok ri2) (p : String) (a2 : NDArr)
    (h2 : dictLookup ri2 p = some a2) :
    ∃ a, dictLookup ri p = some a ∧ reshapeArr r c true a = Except.ok a2 := by
  induction ri generalizing ri2 with
  | nil =>
    simp only [reshapeAllData, Except.ok.injEq] at h
    subst h
    simp [dictLookup] at h2
  | cons pa0 rest ih =>
    obtain ⟨p0, a0⟩ := pa0
    rw [reshapeAllData] at h
    cases h1 : reshapeArr r c true a0 with
    | error e => rw [h1] at h; cases h
    | ok b0 =>
      rw [h1] at h
      cases hrec : reshapeAllData r c rest with
      | error e => rw [hrec] at h; cases h
      | ok r2 =>
        rw [hrec] at h
        simp only [Except.ok.injEq] at h
        subst h
        rw [dictLookup] at h2
        by_cases hp : p0 = p
        · rw [if_pos hp] at h2
          injection h2 with h3
          subst h3
          subst hp
          exact ⟨a0, by rw [dictLookup, if_pos rfl], h1⟩
        · rw [if_neg hp] at h2
          obtain ⟨a, ha1, ha2⟩ := ih r2 hrec h2
          exact ⟨a, by rw [dictLookup, if_neg hp]; exact ha1, ha2⟩

/-- Reassembling rows of uniform length `c` recovers them. -/
theorem chunkN_flatten_rows {α : Type} (rows : List (List α)) (c : Nat)
    (hlen : ∀ row ∈ rows, row.length = c) :
    chunkN rows.length c rows.flatten = rows := by
  induction rows with
  | nil => rfl
  | cons x xs ih =>
    have hx : x.length = c := hlen x (List.mem_cons_self _ _)
    rw [List.length_cons, chunkN, List.flatten_cons, ← hx, List.take_left,
      List.drop_left, hx]
    rw [ih (fun row hrow => hlen row (List.mem_cons_of_mem _ hrow))]

/-- Flipping reverses the row order of the raster. -/
theorem chunkN_flipCells {α : Type} (r c : Nat) (l : List α)
    (h : l.length = r * c) :
    chunkN r c (flipCells r c l) = (chunkN r c l).reverse := by
  have hrows : ∀ row ∈ (chunkN r c l).reverse, row.length = c := by
    intro row hrow
    exact chunkN_row_length r c l h row (List.mem_reverse.mp hrow)
  have hlen : (chunkN r c l).reverse.length = r := by
    rw [List.length_reverse, chunkN_length]
  have hstep : chunkN r c (flipCells r c l) =
      chunkN (chunkN r c l).reverse.length c (chunkN r c l).reverse.flatten := by
    rw [hlen]
    rfl
  rw [hstep, chunkN_flatten_rows _ c hrows]

theorem reverse_of_all_eq {α : Type} (l : List α)
    (h : ∀ x ∈ l, ∀ y ∈ l, x = y) : l.reverse = l := by
  cases l with
  | nil => rfl
  | cons a l0 =>
    have hall : ∀ b ∈ a :: l0, b = a :=
      fun b hb => h b hb a (List.mem_cons_self _ _)
    have he := List.eq_replicate_of_mem hall
    rw [he, List.reverse_replicate]

theorem effParams_flatten (s : DecState) (b : Bool) :
    effParams { s with flatten := b } = effParams s := rfl

theorem computeFlagMask_flatten (s : DecState) (b : Bool) (pimg : ImgDict)
    (px : List String) :
    computeFlagMask { s with flatten := b } pimg px =
      computeFlagMask s pimg px := rfl

theorem applyMaskOne_flatten (s : DecState) (b : Bool) (fm : List Bool)
    (a : NDArr) :
    applyMaskOne { s with flatten := b } fm a = applyMaskOne s fm a := rfl

theorem applyMasks_flatten (s : DecState) (b : Bool) (fm : List Bool)
    (ri : ImgDict) :
    applyMasks { s with flatten := b } fm ri = applyMasks s fm ri := by
  induction ri with
  | nil => rfl
  | cons pa0 rest ih =>
    obtain ⟨p0, a0⟩ := pa0
    rw [applyMasks, applyMasks, applyMaskOne_flatten, ih]

theorem popFlagVar_flatten (s : DecState) (b : Bool) (ri : ImgDict)
    (rm : MetaDict) :
    popFlagVar { s with flatten := b } ri rm = popFlagVar s ri rm := rfl

theorem readImgLoop_flatten (s : DecState) (b : Bool) (ds : NCDataset) :
    readImgLoop { s with flatten := b } ds = readImgLoop s ds := by
  unfold readImgLoop
  simp only [effParams_flatten, computeFlagMask_flatten, applyMasks_flatten,
    popFlagVar_flatten]

theorem readImgCore_flatten (s : DecState) (b : Bool) (ds : NCDataset) :
    readImgCore { s with flatten := b } ds =
      ({ (readImgCore s ds).1 with flatten := b }, (readImgCore s ds).2) := by
  unfold readImgCore
  refine Prod.ext rfl ?_
  exact readImgLoop_flatten
    { s with glob_attrs := some ds.globalAttrs
             parameters := if s.parameters.isEmpty then multidimVars ds
                           else s.parameters } b ds

theorem readStep_flatten (s : DecState) (b : Bool)
    (o : Except Unit NCDataset) :
    readStep { s with flatten := b } o =
      ((readStep s o).1, { (readStep s o).2.1 with flatten := b },
        (readStep s o).2.2) := by
  cases o with
  | error e => rfl
  | ok ds =>
    unfold readStep
    simp only []
    rw [readImgCore_flatten s b ds]

/-- C7: with everything else fixed, the flatten toggle changes only the
layout of the produced image.  For any source-open outcome on which
both modes succeed: data keys agree; every data parameter holds the
same multiset of cells, flat with shape `[length]` in flatten mode
versus the `(rows, cols)` raster obtained by reshaping and vertically
flipping (row order reversed, so that with the grid's south-to-north
active-point ordering row 0 is the northernmost row); latitude is
reshaped and flipped the same way; longitude is reshaped (same cells,
so trivially the same multiset), and is also equal to its flipped
raster whenever its raster rows are all identical, as on a regular
grid. -/
theorem c7_flatten_toggle (s : DecState) (ts : Option Int)
    (o : Except Unit NCDataset) (imgF imgR : RasterImage)
    (hF : (decoderRead { s with flatten := true } ts o).2.2 = Except.ok imgF)
    (hR : (decoderRead { s with flatten := false } ts o).2.2 = Except.ok imgR) :
    dictKeys imgR.data = dictKeys imgF.data ∧
    (∀ p a2 a1, dictLookup imgR.data p = some a2 →
        dictLookup imgF.data p = some a1 →
        a2.cells.Perm a1.cells ∧
        a1.shape = [a1.cells.length] ∧
        a2.shape = [s.grid.rows, s.grid.cols] ∧
        a2.cells = flipCells s.grid.rows s.grid.cols a1.cells) ∧
    (imgR.lon.cells = imgF.lon.cells ∧
      imgF.lon.shape = [imgF.lon.cells.length] ∧
      imgR.lon.shape = [s.grid.rows, s.grid.cols] ∧
      ((∀ row1 ∈ chunkN s.grid.rows s.grid.cols imgF.lon.cells,
          ∀ row2 ∈ chunkN s.grid.rows s.grid.cols imgF.lon.cells,
          row1 = row2) →
        imgR.lon.cells = flipCells s.grid.rows s.grid.cols imgF.lon.cells)) ∧
    (imgR.lat.cells = flipCells s.grid.rows s.grid.cols imgF.lat.cells ∧
      imgR.lat.cells.Perm imgF.lat.cells ∧
      imgF.lat.shape = [imgF.lat.cells.length] ∧
      imgR.lat.shape = [s.grid.rows, s.grid.cols] ∧
      chunkN s.grid.rows s.grid.cols imgR.lat.cells =
        (chunkN s.grid.rows s.grid.cols imgF.lat.cells).reverse) := by
  cases ts with
  | none => simp [decoderRead] at hF
  | some t =>
    rcases hstep : readStep s o with ⟨tr, s1, res⟩
    have hstepT : readStep { s with flatten := true } o =
        (tr, { s1 with flatten := true }, res) := by
      rw [readStep_flatten s true o, hstep]
    have hstepF : readStep { s with flatten := false } o =
        (tr, { s1 with flatten := false }, res) := by
      rw [readStep_flatten s false o, hstep]
    cases res with
    | error e =>
      rw [decoderRead_err_step _ t o _ _ e hstepT] at hF
      simp at hF
    | ok pr =>
      obtain ⟨ri, rm⟩ := pr
      rw [decoderRead_ok_step _ t o _ _ _ _ hstepT] at hF
      rw [decoderRead_ok_step _ t o _ _ _ _ hstepF] at hR
      obtain ⟨hgrid, -, ⟨n, hsh⟩, -⟩ := readStep_ok_inv s o tr s1 ri rm hstep
      unfold layoutImage at hF hR
      rw [if_pos rfl] at hF
      rw [if_neg (by simp)] at hR
      simp only [Except.ok.injEq] at hF
      subst hF
      split at hR
      · simp at hR
      · next ri2 hra =>
        split at hR
        · simp at hR
        · next lonA hlon =>
          split at hR
          · simp at hR
          · next latA hlat =>
            simp only [Except.ok.injEq] at hR
            subst hR
            simp only [] at hra hlon hlat ⊢
            rw [hgrid] at hra hlon hlat ⊢
            obtain ⟨hlon1, hlon2, hlon3, hlon4, hlon5⟩ :=
              reshapeArr_ok _ _ _ _ _ hlon
            obtain ⟨hlat1, hlat2, hlat3, hlat4, hlat5⟩ :=
              reshapeArr_ok _ _ _ _ _ hlat
            rw [if_neg (by simp)] at hlon3
            rw [if_pos rfl] at hlat3
            refine ⟨?_, ?_, ?_, ?_⟩
            · exact (reshapeAllData_ok_keys _ _ _ _ hra).1
            · intro p a2 a1 hpa2 hpa1
              obtain ⟨a, ha1, ha2⟩ :=
                reshapeAllData_lookup _ _ _ _ hra p a2 hpa2
              rw [ha1] at hpa1
              injection hpa1 with hpa1
              subst hpa1
              obtain ⟨hq1, hq2, hq3, -, -⟩ := reshapeArr_ok _ _ _ _ _ ha2
              rw [if_pos rfl] at hq3
              obtain ⟨hsa, hca⟩ := hsh (p, a) (dictLookup_mem ha1)
              refine ⟨?_, ?_, hq2, hq3⟩
              · rw [hq3]
                exact flipCells_perm _ _ _ hq1
              · rw [hsa, hca]
            · refine ⟨hlon3, by simp [flatArr], hlon2, ?_⟩
              intro hconst
              rw [hlon3]
              unfold flipCells
              rw [reverse_of_all_eq _ (by
                intro x hx y hy
                exact hconst x hx y hy)]
              rw [chunkN_flatten _ _ _ hlon1]
            · refine ⟨hlat3, ?_, by simp [flatArr], hlat2, ?_⟩
              · rw [hlat3]
                exact flipCells_perm _ _ _ hlat1
              · rw [hlat3, chunkN_flipCells _ _ _ hlat1]

/-- C7 (witness): the toggle relation evaluated on the concrete fixture
reads (same dataset, flatten on versus off). -/
theorem c7_witness :
    dictKeys exImgRast.data = dictKeys exImgFlat.data ∧
    ∀ p a2 a1, dictLookup exImgRast.data p = some a2 →
      dictLookup exImgFlat.data p = some a1 →
      a2.cells.Perm a1.cells ∧
      a1.shape = [a1.cells.length] ∧
      a2.shape = [(initImg exCfg).grid.rows, (initImg exCfg).grid.cols] ∧
      a2.cells = flipCells (initImg exCfg).grid.rows
        (initImg exCfg).grid.cols a1.cells :=
  ⟨(c7_flatten_toggle (initImg exCfg) (some 7) (Except.ok exDs)
      exImgFlat exImgRast rfl rfl).1,
   (c7_flatten_toggle (initImg exCfg) (some 7) (Except.ok exDs)
      exImgFlat exImgRast rfl rfl).2.1⟩

/-! ### C8: null timestamp -/

/-- C8: with a null timestamp, `read` fails immediately with the
InvalidArgument condition (Python `ValueError`, line 213): the action
trace is empty (no file access) and the instance state is returned
unchanged, whatever the state and the would-be open outcome. -/
theorem c8_null_timestamp (s : DecState) (o : Except Unit NCDataset) :
    decoderRead s none o = ([], s, Except.error PyErr.valueError) := rfl

/-! ### C5: write precondition -/

/-- C5: `write` fails when no image has been read yet (`self.img` is
`None`) or the current image lacks a timestamp, with the
PreconditionError of the spec (realized as Python `IOError`, lines
258-262); the failure is raised before the target file is opened (empty
action trace) and the instance state is unchanged. -/
theorem c5_write_precondition (s : DecState) (fe : Bool)
    (now bbox sw : AttrVal)
    (h : s.img = none ∨ ∃ img, s.img = some img ∧ img.timestamp = none) :
    imgWrite s fe now bbox sw = ([], s, Except.error PyErr.ioError) := by
  rcases h with h | ⟨img, h1, h2⟩
  · simp [imgWrite, h]
  · simp [imgWrite, h1, h2]

/-- C5 (witness): a freshly constructed decoder (nothing read yet)
rejects `write` with the precondition failure, no trace, state
unchanged. -/
theorem c5_witness :
    imgWrite (initImg exCfg) false (AttrVal.int 0) (AttrVal.int 0)
        (AttrVal.int 0) =
      ([], initImg exCfg, Except.error PyErr.ioError) :=
  c5_write_precondition (initImg exCfg) false _ _ _ (Or.inl rfl)

/-! ### C9: write-create mutates the stored global attributes -/

theorem dictLookup_dictRemoveKeys (m : AttrMap) (ks : List String)
    (k : String) :
    dictLookup (dictRemoveKeys m ks) k =
      if k ∈ ks then none else dictLookup m k := by
  induction ks generalizing m with
  | nil => simp [dictRemoveKeys]
  | cons k0 rest ih =>
    show dictLookup (dictRemoveKeys (dictRemove m k0) rest) k = _
    rw [ih, dictLookup_dictRemove]
    by_cases h1 : k ∈ rest
    · simp [h1]
    · by_cases h2 : k = k0
      · simp [h1, h2]
      · simp [h1, h2]

theorem dictLookup_dictUpdate_not_mem (m : AttrMap) (kvs : AttrMap)
    (k : String) :
    k ∉ dictKeys kvs → dictLookup (dictUpdate m kvs) k = dictLookup m k := by
  induction kvs generalizing m with
  | nil => intro _; rfl
  | cons kv rest ih =>
    intro h
    have hk : k ≠ kv.1 := by
      intro hh
      exact h (by simp [dictKeys, hh])
    have hr : k ∉ dictKeys rest := by
      intro hh
      refine h ?_
      simp only [dictKeys, List.map_cons, List.mem_cons]
      exact Or.inr (by simpa [dictKeys] using hh)
    show dictLookup (dictUpdate (dictSet m kv.1 kv.2) rest) k = _
    rw [ih _ hr, dictLookup_dictSet_other _ _ _ _ hk]

/-- C9: calling `write` in create mode (target file absent) mutates the
decoder's stored global attributes: the stale keys 'ease_global',
'history', 'creation_time' and 'NCO' are deleted from `self.glob_attrs`
and the provenance keys are merged in, so a later `get_global_attrs` on
the same instance returns the reduced/augmented set (filtered by its
exclusion list) instead of the attributes recorded at the last source
open. -/
theorem c9_write_create_mutates (s : DecState) (now bbox sw : AttrVal)
    (img : RasterImage) (t : Int) (ga : AttrMap)
    (h1 : s.img = some img) (h2 : img.timestamp = some t)
    (h3 : s.glob_attrs = some ga) :
    (imgWrite s false now bbox sw).2.2 = Except.ok () ∧
    (imgWrite s false now bbox sw).2.1.glob_attrs =
      some (dictUpdate (dictRemoveKeys ga staleGlobKeys)
        (provenanceAttrs now bbox sw)) ∧
    (∀ k ∈ staleGlobKeys,
      dictLookup (dictUpdate (dictRemoveKeys ga staleGlobKeys)
        (provenanceAttrs now bbox sw)) k = none) ∧
    dictLookup (dictUpdate (dictRemoveKeys ga staleGlobKeys)
      (provenanceAttrs now bbox sw)) "subset_img_creation_time" = some now ∧
    dictLookup (dictUpdate (dictRemoveKeys ga staleGlobKeys)
      (provenanceAttrs now bbox sw)) "subset_img_bbox_corners_latlon" =
      some bbox ∧
    dictLookup (dictUpdate (dictRemoveKeys ga staleGlobKeys)
      (provenanceAttrs now bbox sw)) "subset_software" = some sw ∧
    getGlobalAttrs (imgWrite s false now bbox sw).2.1 =
      some ((dictUpdate (dictRemoveKeys ga staleGlobKeys)
        (provenanceAttrs now bbox sw)).filter
          (fun kv => !(globAttrsExclude.contains kv.1))) := by
  have hset : dictUpdate (dictRemoveKeys ga staleGlobKeys)
      (provenanceAttrs now bbox sw) =
      dictSet (dictSet (dictSet (dictRemoveKeys ga staleGlobKeys)
        "subset_img_creation_time" now)
        "subset_img_bbox_corners_latlon" bbox)
        "subset_software" sw := rfl
  refine ⟨?_, ?_, ?_, ?_, ?_, ?_, ?_⟩
  · simp [imgWrite, h1, h2, h3]
  · simp [imgWrite, h1, h2, h3]
  · intro k hk
    rw [dictLookup_dictUpdate_not_mem _ _ _ ?side, dictLookup_dictRemoveKeys,
      if_pos hk]
    case side =>
      fin_cases hk <;> simp [provenanceAttrs, dictKeys]
  · rw [hset, dictLookup_dictSet_other _ _ _ _ (by decide),
      dictLookup_dictSet_other _ _ _ _ (by decide), dictLookup_dictSet_self]
  · rw [hset, dictLookup_dictSet_other _ _ _ _ (by decide),
      dictLookup_dictSet_self]
  · rw [hset, dictLookup_dictSet_self]
  · simp [imgWrite, h1, h2, h3, getGlobalAttrs]

/-- C9 (witness): the mutation evaluated on a concrete post-read state
holding the fixture's global attributes. -/
theorem c9_witness :
    (imgWrite exWriteState false (AttrVal.str "n0") (AttrVal.str "b0")
        (AttrVal.str "s0")).2.2 = Except.ok () ∧
    (imgWrite exWriteState false (AttrVal.str "n0") (AttrVal.str "b0")
        (AttrVal.str "s0")).2.1.glob_attrs =
      some (dictUpdate (dictRemoveKeys exDs.globalAttrs staleGlobKeys)
        (provenanceAttrs (AttrVal.str "n0") (AttrVal.str "b0")
          (AttrVal.str "s0"))) ∧
    ∀ k ∈ staleGlobKeys,
      dictLookup (dictUpdate (dictRemoveKeys exDs.globalAttrs staleGlobKeys)
        (provenanceAttrs (AttrVal.str "n0") (AttrVal.str "b0")
          (AttrVal.str "s0"))) k = none :=
  ⟨(c9_write_create_mutates exWriteState (AttrVal.str "n0") (AttrVal.str "b0")
      (AttrVal.str "s0") exSimpleImg 7 exDs.globalAttrs rfl rfl rfl).1,
   (c9_write_create_mutates exWriteState (AttrVal.str "n0") (AttrVal.str "b0")
      (AttrVal.str "s0") exSimpleImg 7 exDs.globalAttrs rfl rfl rfl).2.1,
   (c9_write_create_mutates exWriteState (AttrVal.str "n0") (AttrVal.str "b0")
      (AttrVal.str "s0") exSimpleImg 7 exDs.globalAttrs rfl rfl rfl).2.2.1⟩

/-! ### C10: the parameter list and the decoder's read history -/

theorem readStep_err_state (s : DecState) :
    (readStep s (Except.error ())).2.1 = { s with image_missing := true } :=
  rfl

theorem readStep_ok_state (s : DecState) (ds : NCDataset) :
    (readStep s (Except.ok ds)).2.1 =
      { s with glob_attrs := some ds.globalAttrs
               parameters := if s.parameters.isEmpty then multidimVars ds
                             else s.parameters } := rfl

/-- The state fields of the decoder after `read` with a non-null
timestamp are the ones set by the pre-layout step (the layout phase
only stores `self.img`). -/
theorem decoderRead_state (s : DecState) (t : Int)
    (o : Except Unit NCDataset) :
    (decoderRead s (some t) o).2.1.parameters =
      (readStep s o).2.1.parameters ∧
    (decoderRead s (some t) o).2.1.grid = (readStep s o).2.1.grid ∧
    (decoderRead s (some t) o).2.1.flatten = (readStep s o).2.1.flatten ∧
    (decoderRead s (some t) o).2.1.image_missing =
      (readStep s o).2.1.image_missing ∧
    (decoderRead s (some t) o).2.1.glob_attrs =
      (readStep s o).2.1.glob_attrs := by
  rcases hstep : readStep s o with ⟨tr, s1, res⟩
  cases res with
  | error e =>
    rw [decoderRead_err_step _ t _ _ _ _ hstep]
    exact ⟨rfl, rfl, rfl, rfl, rfl⟩
  | ok pr =>
    obtain ⟨ri, rm⟩ := pr
    rw [decoderRead_ok_step _ t _ _ _ _ _ hstep]
    unfold layoutImage
    split
    · exact ⟨rfl, rfl, rfl, rfl, rfl⟩
    · split
      · exact ⟨rfl, rfl, rfl, rfl, rfl⟩
      · split
        · exact ⟨rfl, rfl, rfl, rfl, rfl⟩
        · split
          · exact ⟨rfl, rfl, rfl, rfl, rfl⟩
          · exact ⟨rfl, rfl, rfl, rfl, rfl⟩

/-- C10: with `parameters=None` the decoder's parameter list starts
empty, so an unreadable source before any successful read yields a
synthetic image with zero parameters; the first successful read
overwrites `self.parameters` with the file's multi-dimensional variable
names, so a later synthetic empty image contains exactly those
parameters — the synthetic image's content depends on the instance's
read history. -/
theorem c10_parameter_history (cfg : ImgConfig) (ds : NCDataset)
    (t1 t2 t3 : Int)
    (hp : cfg.parameters = none)
    (h1 : cfg.grid.activearrlon.length = cfg.grid.rows * cfg.grid.cols)
    (h2 : cfg.grid.activearrlat.length = cfg.grid.rows * cfg.grid.cols) :
    (initImg cfg).parameters = [] ∧
    (∃ img1, (decoderRead (initImg cfg) (some t1)
        (Except.error ())).2.2 = Except.ok img1 ∧
      img1.data = [] ∧ img1.metadata = []) ∧
    (decoderRead (initImg cfg) (some t1)
      (Except.error ())).2.1.parameters = [] ∧
    (decoderRead (initImg cfg) (some t2)
      (Except.ok ds)).2.1.parameters = multidimVars ds ∧
    (∃ img3, (decoderRead ((decoderRead (initImg cfg) (some t2)
          (Except.ok ds)).2.1) (some t3) (Except.error ())).2.2 =
        Except.ok img3 ∧
      dictKeys img3.data = multidimVars ds ∧
      img3.metadata = (multidimVars ds).map
        (fun p => (p, [("image_missing", AttrVal.int 1)]))) := by
  have hpe : (initImg cfg).parameters = [] := by
    simp [initImg, hp]
  have hg : (initImg cfg).grid = cfg.grid := rfl
  refine ⟨hpe, ?_, ?_, ?_, ?_⟩
  · obtain ⟨img1, heq, -, hmeta, hkeys, -⟩ :=
      decoderRead_empty_char (initImg cfg) t1 (by rw [hg]; exact h1)
        (by rw [hg]; exact h2)
    refine ⟨img1, by rw [heq], ?_, ?_⟩
    · have := hkeys
      rw [hpe] at this
      simpa [dictKeys] using List.map_eq_nil_iff.mp this
    · rw [hmeta, hpe]
      rfl
  · obtain ⟨img1, heq, -⟩ :=
      decoderRead_empty_char (initImg cfg) t1 (by rw [hg]; exact h1)
        (by rw [hg]; exact h2)
    rw [heq]
    exact hpe
  · rw [(decoderRead_state (initImg cfg) t2 (Except.ok ds)).1,
      readStep_ok_state]
    simp [hpe]
  · have hs2par : (decoderRead (initImg cfg) (some t2)
        (Except.ok ds)).2.1.parameters = multidimVars ds := by
      rw [(decoderRead_state (initImg cfg) t2 (Except.ok ds)).1,
        readStep_ok_state]
      simp [hpe]
    have hs2grid : (decoderRead (initImg cfg) (some t2)
        (Except.ok ds)).2.1.grid = cfg.grid := by
      rw [(decoderRead_state (initImg cfg) t2 (Except.ok ds)).2.1,
        readStep_ok_state]
      rfl
    obtain ⟨img3, heq, -, hmeta, hkeys, -⟩ :=
      decoderRead_empty_char
        ((decoderRead (initImg cfg) (some t2) (Except.ok ds)).2.1) t3
        (by rw [hs2grid]; exact h1) (by rw [hs2grid]; exact h2)
    refine ⟨img3, by rw [heq], ?_, ?_⟩
    · rw [hkeys, hs2par]
    · rw [hmeta, hs2par]

/-- C10 (witness): the read-history dependence evaluated on the fixture
configuration (auto-detected parameters) and dataset. -/
theorem c10_witness :
    (initImg exCfg).parameters = [] ∧
    (∃ img1, (decoderRead (initImg exCfg) (some 1)
        (Except.error ())).2.2 = Except.ok img1 ∧
      img1.data = [] ∧ img1.metadata = []) ∧
    (decoderRead (initImg exCfg) (some 1)
      (Except.error ())).2.1.parameters = [] ∧
    (decoderRead (initImg exCfg) (some 2)
      (Except.ok exDs)).2.1.parameters = multidimVars exDs ∧
    (∃ img3, (decoderRead ((decoderRead (initImg exCfg) (some 2)
          (Except.ok exDs)).2.1) (some 3) (Except.error ())).2.2 =
        Except.ok img3 ∧
      dictKeys img3.data = multidimVars exDs ∧
      img3.metadata = (multidimVars exDs).map
        (fun p => (p, [("image_missing", AttrVal.int 1)]))) :=
  c10_parameter_history exCfg exDs 1 2 3 rfl (by decide) (by decide)

/-! ### C6: write_multiple skips synthetic images -/

/-- A fresh per-timestamp decoder reports `image_missing` exactly when
no source file resolves for that timestamp. -/
theorem dsAssembleImg_missing (cfg : ImgConfig)
    (src : Int → Option NCDataset) (t : Int) :
    (dsAssembleImg cfg src t).1.image_missing = (src t).isNone := by
  unfold dsAssembleImg
  cases hsrc : src t with
  | none =>
    simp only []
    rw [(decoderRead_state (initImg cfg) t (Except.error ())).2.2.2.1,
      readStep_err_state]
    rfl
  | some ds =>
    simp only []
    rw [(decoderRead_state (initImg cfg) t (Except.ok ds)).2.2.2.1,
      readStep_ok_state]
    rfl

/-- A successful `read` stores the produced image, which carries the
requested timestamp. -/
theorem decoderRead_ok_img (s : DecState) (t : Int)
    (o : Except Unit NCDataset) (img : RasterImage)
    (h : (decoderRead s (some t) o).2.2 = Except.ok img) :
    (decoderRead s (some t) o).2.1.img = some img ∧
    img.timestamp = some t := by
  rcases hstep : readStep s o with ⟨tr, s1, res⟩
  cases res with
  | error e =>
    rw [decoderRead_err_step _ t _ _ _ _ hstep] at h
    simp at h
  | ok pr =>
    obtain ⟨ri, rm⟩ := pr
    rw [decoderRead_ok_step _ t _ _ _ _ _ hstep] at h ⊢
    unfold layoutImage at h ⊢
    by_cases hf : s1.flatten
    · rw [if_pos hf] at h ⊢
      simp only [Except.ok.injEq] at h
      subst h
      exact ⟨rfl, rfl⟩
    · rw [if_neg hf] at h ⊢
      cases hra : reshapeAllData s1.grid.rows s1.grid.cols ri with
      | error e => rw [hra] at h; simp at h
      | ok ri2 =>
        rw [hra] at h
        cases hlon : reshapeArr s1.grid.rows s1.grid.cols false
            (flatArr s1.grid.activearrlon) with
        | error e => rw [hlon] at h; simp at h
        | ok lonA =>
          rw [hlon] at h
          cases hlat : reshapeArr s1.grid.rows s1.grid.cols true
              (flatArr s1.grid.activearrlat) with
          | error e => rw [hlat] at h; simp at h
          | ok latA =>
            rw [hlat] at h
            simp only [Except.ok.injEq] at h
            subst h
            exact ⟨rfl, rfl⟩

/-- `write` succeeds once an image with a timestamp is loaded and (for
create mode) global attributes were recorded. -/
theorem imgWrite_ok (s : DecState) (fe : Bool) (now bbox sw : AttrVal)
    (img : RasterImage) (t : Int) (ga : AttrMap)
    (h1 : s.img = some img) (h2 : img.timestamp = some t)
    (h3 : s.glob_attrs = some ga) :
    (imgWrite s fe now bbox sw).2.2 = Except.ok () := by
  cases fe <;> simp [imgWrite, h1, h2, h3]

theorem writeMultipleGo_filter (cfg : ImgConfig)
    (src : Int → Option NCDataset) (now bbox sw : AttrVal) (l : List Int)
    (fe : Bool)
    (hall : ∀ t ∈ l, ∃ img, (dsAssembleImg cfg src t).2 = Except.ok img) :
    writeMultipleGo cfg src now bbox sw fe l =
      Except.ok (l.filter (fun t => (src t).isSome)) := by
  induction l generalizing fe with
  | nil => rfl
  | cons t rest ih =>
    obtain ⟨img, himg⟩ := hall t (List.mem_cons_self _ _)
    have hrest : ∀ u ∈ rest, ∃ img,
        (dsAssembleImg cfg src u).2 = Except.ok img :=
      fun u hu => hall u (List.mem_cons_of_mem _ hu)
    rw [writeMultipleGo, himg]
    cases hsrc : src t with
    | none =>
      have hmiss : (dsAssembleImg cfg src t).1.image_missing = true := by
        rw [dsAssembleImg_missing, hsrc]
        rfl
      simp only [hmiss, if_true, ih fe hrest, List.filter_cons, hsrc,
        Option.isSome_none, Bool.false_eq_true, if_false]
    | some ds =>
      have hmiss : (dsAssembleImg cfg src t).1.image_missing = false := by
        rw [dsAssembleImg_missing, hsrc]
        rfl
      have hdec : (decoderRead (initImg cfg) (some t)
          (Except.ok ds)).2.2 = Except.ok img := by
        have : (dsAssembleImg cfg src t).2 =
            (decoderRead (initImg cfg) (some t) (Except.ok ds)).2.2 := by
          unfold dsAssembleImg
          rw [hsrc]
        rw [← this, himg]
      have hstate : (dsAssembleImg cfg src t).1 =
          (decoderRead (initImg cfg) (some t) (Except.ok ds)).2.1 := by
        unfold dsAssembleImg
        rw [hsrc]
      obtain ⟨himgst, hts⟩ := decoderRead_ok_img (initImg cfg) t
        (Except.ok ds) img hdec
      have hglob : (decoderRead (initImg cfg) (some t)
          (Except.ok ds)).2.1.glob_attrs = some ds.globalAttrs := by
        rw [(decoderRead_state (initImg cfg) t (Except.ok ds)).2.2.2.2,
          readStep_ok_state]
      have hwr : (imgWrite (dsAssembleImg cfg src t).1 fe now bbox
          sw).2.2 = Except.ok () := by
        rw [hstate]
        exact imgWrite_ok _ fe now bbox sw img t ds.globalAttrs himgst
          hts hglob
      simp only [hmiss, Bool.false_eq_true, if_false, hwr,
        ih true hrest, List.filter_cons, hsrc, Option.isSome_some, if_true]

/-- C6: over any date range, `write_multiple` writes an output record
exactly for the timestamps whose decoded image is not synthetic —
`image_missing` timestamps are skipped and not written — so the written
record count is strictly below the range length whenever at least one
date in the range has no source file.  (The file-resolution collaborator
is modelled from the spec, section 4.3: a fresh decoder per timestamp,
unresolvable paths read as synthetic empty images.) -/
theorem c6_write_multiple_skips_missing (cfg : ImgConfig)
    (src : Int → Option NCDataset) (now bbox sw : AttrVal)
    (startD endD : Int)
    (hok : ∀ t ∈ tstampsForDaterange startD endD,
      ∃ img, (dsAssembleImg cfg src t).2 = Except.ok img) :
    writeMultiple cfg src now bbox sw startD endD =
      Except.ok ((tstampsForDaterange startD endD).filter
        (fun t => (src t).isSome)) ∧
    ((∃ t ∈ tstampsForDaterange startD endD, src t = none) →
      ((tstampsForDaterange startD endD).filter
        (fun t => (src t).isSome)).length <
        (tstampsForDaterange startD endD).length) := by
  constructor
  · exact writeMultipleGo_filter cfg src now bbox sw _ false hok
  · rintro ⟨t, ht, htnone⟩
    exact List.length_filter_lt_length_iff_exists.mpr
      ⟨t, ht, by simp [htnone]⟩

/-- C6 (witness): a two-day range with one present date (timestamp 0)
and one absent date (timestamp 1440) writes exactly one record. -/
theorem c6_witness :
    writeMultiple exCfg exSrc (AttrVal.str "n1") (AttrVal.str "b1")
        (AttrVal.str "s1") 0 1440 =
      Except.ok ((tstampsForDaterange 0 1440).filter
        (fun t => (exSrc t).isSome)) ∧
    ((tstampsForDaterange 0 1440).filter
      (fun t => (exSrc t).isSome)).length <
      (tstampsForDaterange 0 1440).length := by
  have h := c6_write_multiple_skips_missing exCfg exSrc (AttrVal.str "n1")
    (AttrVal.str "b1") (AttrVal.str "s1") 0 1440 ?hok
  case hok =>
    intro t ht
    fin_cases ht
    · exact ⟨_, rfl⟩
    · exact ⟨_, rfl⟩
  exact ⟨h.1, h.2 ⟨1440, by decide, by decide⟩⟩

end SmosL4
